import Mathlib

/-!
Shallow embedding of `simple_sams_api/base.py` (a thin client for the SAMS
patient-data service) and proofs about its pure data-transformation logic.

Network I/O (HTTP requests, the session cookie jar) is outside the embedding;
what is embedded is every computation the module performs on already-parsed
data: credential-file parsing, the post-fetch subject-id consistency check of
`get_phenopacket`, the two term extractors, and the onset filter.

Python values are embedded as follows: a JSON phenopacket object becomes the
`Phenopacket` structure (optional keys become `Option` fields), Python strings
become `String`, Python exceptions become the `Err` inductive carried in
`Except`, and Python's builtin string operations (`<` comparison used by
`min`/`max`, `str.strip`, `file.readlines`) are re-implemented on `List Char`
so that every definition is kernel-computable.
-/

namespace SimpleSamsApi

/-- Python exceptions raised by the embedded code paths.
`keyError` ≙ `KeyError` (missing dict key), `valueError` ≙ `ValueError`
(unpacking a list of the wrong length; `min`/`max` of an empty iterable),
`runtimeError` ≙ `RuntimeError` (the consistency check of `get_phenopacket`). -/
inductive Err where
  | keyError : String → Err
  | valueError : Err
  | runtimeError : String → Err
  deriving DecidableEq, Repr

/-- The `subject` sub-object of a phenopacket; only its `id` is ever read. -/
structure Subject where
  id : String
  deriving DecidableEq, Repr

/-- One entry of `phenotypicFeatures`: `type.id`, `type.label`, the optional
truthy `excluded` flag (absent ≙ falsy, per `feature.get("excluded", 0)`), and
`onset.timestamp`. -/
structure Feature where
  type_id : String
  type_label : String
  excluded : Bool
  onset_timestamp : String
  deriving DecidableEq, Repr

/-- One entry of `diseases`: like `Feature` but keyed `term.id`/`term.label`. -/
structure Disease where
  term_id : String
  term_label : String
  excluded : Bool
  onset_timestamp : String
  deriving DecidableEq, Repr

/-- A phenopacket record.  The three keys the module reads are modelled as
`Option` fields (`none` ≙ key absent from the JSON object). -/
structure Phenopacket where
  subject : Option Subject
  phenotypicFeatures : Option (List Feature)
  diseases : Option (List Disease)
  deriving DecidableEq, Repr

/-- Decidable equality of `Except` results, so that concrete runs of the
embedded operations can be checked by `decide`. -/
instance {ε α : Type} [DecidableEq ε] [DecidableEq α] : DecidableEq (Except ε α) := fun x y =>
  match x, y with
  | .ok a, .ok b => if h : a = b then .isTrue (by rw [h]) else .isFalse (by simp [h])
  | .error a, .error b => if h : a = b then .isTrue (by rw [h]) else .isFalse (by simp [h])
  | .ok _, .error _ => .isFalse (by simp)
  | .error _, .ok _ => .isFalse (by simp)

/-! ## Python builtin string operations, embedded on `List Char` -/

/-- Python's `<` on strings: lexicographic comparison of the code-point
sequences.  Stated via `List.Lex` so it is both kernel-computable and
directly convertible to Mathlib's `LinearOrder String`. -/
def strLt (a b : String) : Bool := decide (List.Lex (· < ·) a.data b.data)

/-- One step of Python's `min` over an iterable: keep the accumulator unless
the next element compares strictly smaller. -/
def py_min_step (acc x : String) : String := if strLt x acc then x else acc

/-- One step of Python's `max` over an iterable. -/
def py_max_step (acc x : String) : String := if strLt acc x then x else acc

/-- Python's `min(iterable)` for strings: `ValueError` on an empty iterable,
else the left fold of `py_min_step` started at the first element. -/
def pyMinList : List String → Except Err String
  | [] => .error Err.valueError
  | t :: ts => .ok (ts.foldl py_min_step t)

/-- Python's `max(iterable)` for strings. -/
def pyMaxList : List String → Except Err String
  | [] => .error Err.valueError
  | t :: ts => .ok (ts.foldl py_max_step t)

/-- The whitespace set of Python's `str.strip()` (ASCII part). -/
def pyIsSpace (c : Char) : Bool :=
  c = ' ' || c = '\t' || c = '\n' || c = '\r' || c = '\x0b' || c = '\x0c'

/-- Python's `str.strip()`: remove leading and trailing whitespace. -/
def pystrip (s : String) : String :=
  ⟨((s.data.dropWhile pyIsSpace).reverse.dropWhile pyIsSpace).reverse⟩

/-- Helper for `pythonReadlines`: split a character stream after every
newline character, keeping the newline at the end of each line. -/
def pythonReadlinesAux : List Char → List Char → List (List Char)
  | [], [] => []
  | [], acc => [acc.reverse]
  | c :: cs, acc =>
    if c = '\n' then (c :: acc).reverse :: pythonReadlinesAux cs []
    else pythonReadlinesAux cs (c :: acc)

/-- Python's `file.readlines()` applied to the file's text content: the list
of lines, each retaining its trailing `'\n'` (the last line may lack one); a
trailing newline does not produce an extra empty line. -/
def pythonReadlines (s : String) : List String :=
  (pythonReadlinesAux s.data []).map fun l => ⟨l⟩

/-! ## Embedded operations of `simple_sams_api/base.py` -/

/-- The credential-parsing core of `SAMSapi.login_with_credentials_file`,
applied to the text content of the credentials file:
`username, password = [l.strip() for l in f.readlines()]`.
Tuple unpacking succeeds only if `readlines` yields exactly two lines
(`ValueError` otherwise); on success the function returns the stripped pair
that is then passed on verbatim to `self._login(username, password)`.
The file-system side (an unreadable path raising `IOError`) is outside the
embedding. -/
def login_with_credentials_file (content : String) : Except Err (String × String) :=
  match (pythonReadlines content).map pystrip with
  | [username, password] => .ok (username, password)
  | _ => .error Err.valueError

/-- The post-parse consistency check of `SAMSapi.get_phenopacket`, applied to
the requested id and the already-parsed response record:
`if patient_data["subject"]["id"] != patient_id: raise RuntimeError(...)`,
else `return patient_data`.  The HTTP fetch and JSON parsing are outside the
embedding. -/
def get_phenopacket_check (patient_id : String) (patient_data : Phenopacket) :
    Except Err Phenopacket :=
  match patient_data.subject with
  | none => .error (Err.keyError "subject")
  | some s =>
    if s.id ≠ patient_id then
      .error (Err.runtimeError
        ("Failed to obtain phenopacket for external id " ++ patient_id))
    else .ok patient_data

/-- The f-string `f"{feature['type']['id']} - {feature['type']['label']}"`. -/
def format_feature (f : Feature) : String := f.type_id ++ " - " ++ f.type_label

/-- The accumulation loop of `extract_HPO_terms_from_phenopacket`: build the
`pheno_strings` list (skip excluded features when `ignore_excluded`, else tag
them with the literal suffix `" (excluded)"`). -/
def pheno_strings : List Feature → Bool → List String
  | [], _ => []
  | feature :: rest, ignore_excluded =>
    if feature.excluded then
      if ignore_excluded then pheno_strings rest ignore_excluded
      else (format_feature feature ++ " (excluded)") :: pheno_strings rest ignore_excluded
    else format_feature feature :: pheno_strings rest ignore_excluded

/-- `extract_HPO_terms_from_phenopacket`: if the `phenotypicFeatures` key is
missing, log a warning naming `phenopacket["subject"]["id"]` (a `KeyError` if
`subject` is itself missing) and return `""`; otherwise join the accumulated
`pheno_strings` with `"; "`. -/
def extract_HPO_terms_from_phenopacket (phenopacket : Phenopacket)
    (ignore_excluded : Bool) : Except Err String :=
  match phenopacket.phenotypicFeatures with
  | none =>
    match phenopacket.subject with
    | none => .error (Err.keyError "subject")
    | some _ => .ok ""
  | some phenotypes => .ok (String.intercalate "; " (pheno_strings phenotypes ignore_excluded))

/-- The f-string `f"{disease['term']['id']} - {disease['term']['label']}"`. -/
def format_disease (d : Disease) : String := d.term_id ++ " - " ++ d.term_label

/-- The accumulation loop of `extract_disease_terms_from_phenopacket`. -/
def disease_strings : List Disease → Bool → List String
  | [], _ => []
  | disease :: rest, ignore_excluded =>
    if disease.excluded then
      if ignore_excluded then disease_strings rest ignore_excluded
      else (format_disease disease ++ " (excluded)") :: disease_strings rest ignore_excluded
    else format_disease disease :: disease_strings rest ignore_excluded

/-- `extract_disease_terms_from_phenopacket`: like the HPO extractor with
`diseases` for `phenotypicFeatures` and `term` for `type`. -/
def extract_disease_terms_from_phenopacket (phenopacket : Phenopacket)
    (ignore_excluded : Bool) : Except Err String :=
  match phenopacket.diseases with
  | none =>
    match phenopacket.subject with
    | none => .error (Err.keyError "subject")
    | some _ => .ok ""
  | some diseases => .ok (String.intercalate "; " (disease_strings diseases ignore_excluded))

/-- `extract_HPO_terms_from_phenopacket` with the record state made explicit:
the returned `Phenopacket` is the state of the record after the call.  The
Python function body contains no assignment into the record, so every exit
returns the record exactly as received; pairing the result with that state
lets frame-effect claims be stated and compared with
`filter_phenopacket_by_onset`, which does reassign the record's keys. -/
def extract_HPO_state (phenopacket : Phenopacket) (ignore_excluded : Bool) :
    Except Err (String × Phenopacket) :=
  match phenopacket.phenotypicFeatures with
  | none =>
    match phenopacket.subject with
    | none => .error (Err.keyError "subject")
    | some _ => .ok ("", phenopacket)
  | some phenotypes =>
    .ok (String.intercalate "; " (pheno_strings phenotypes ignore_excluded), phenopacket)

/-- `extract_disease_terms_from_phenopacket` with the record state made
explicit, as for `extract_HPO_state`. -/
def extract_disease_state (phenopacket : Phenopacket) (ignore_excluded : Bool) :
    Except Err (String × Phenopacket) :=
  match phenopacket.diseases with
  | none =>
    match phenopacket.subject with
    | none => .error (Err.keyError "subject")
    | some _ => .ok ("", phenopacket)
  | some diseases =>
    .ok (String.intercalate "; " (disease_strings diseases ignore_excluded), phenopacket)

/-- The inner `compute_onset_timestamp` of `filter_phenopacket_by_onset`:
resolve the sentinel `"earliest"`/`"latest"` to the `min`/`max` of the
`onset.timestamp` values of `phenopacket.get("phenotypicFeatures", [])`
(a `ValueError` when that list is absent or empty), and pass any other
selector through unchanged. -/
def compute_onset_timestamp (phenopacket : Phenopacket) (onset : String) :
    Except Err String :=
  if onset = "earliest" then
    pyMinList ((phenopacket.phenotypicFeatures.getD []).map Feature.onset_timestamp)
  else if onset = "latest" then
    pyMaxList ((phenopacket.phenotypicFeatures.getD []).map Feature.onset_timestamp)
  else .ok onset

/-- `filter_phenopacket_by_onset`: resolve the selector, then rebind
`phenopacket["phenotypicFeatures"]` and `phenopacket["diseases"]` to the
order-preserving sublists (built by the two append loops) of entries whose
`onset.timestamp` equals the resolved target, reading each list with
`.get(key, [])`; the mutated record is returned. -/
def filter_phenopacket_by_onset (phenopacket : Phenopacket)
    (input_onset_timestamp : String) : Except Err Phenopacket :=
  match compute_onset_timestamp phenopacket input_onset_timestamp with
  | .error e => .error e
  | .ok onset_timestamp =>
    .ok { phenopacket with
      phenotypicFeatures := some ((phenopacket.phenotypicFeatures.getD []).filter
        fun feature => feature.onset_timestamp == onset_timestamp),
      diseases := some ((phenopacket.diseases.getD []).filter
        fun disease => disease.onset_timestamp == onset_timestamp) }

/-! ## Claim-side vocabulary

`hasExclSuffix` and `removeExcludedSegments` formalise the spec's description
of recovering the `ignoreExcluded = true` output from the
`ignoreExcluded = false` output: drop every `" (excluded)"`-suffixed segment
and re-join the survivors with `"; "` (so no doubled or dangling separator
can appear).  They are vocabulary for the relational claim about the
extractor, not part of the embedded program. -/

/-- Whether a segment carries the literal suffix `" (excluded)"`. -/
def hasExclSuffix (s : String) : Bool := decide (" (excluded)".data <:+ s.data)

/-- Remove every `" (excluded)"`-suffixed segment from a segment list and
join the survivors with `"; "`. -/
def removeExcludedSegments (segs : List String) : String :=
  String.intercalate "; " (segs.filter fun s => !hasExclSuffix s)

/-! ## Concrete example records (spec §8 test fixtures) used by witnesses -/

/-- Feature `HP:0000001 - Phenotype 1`, onset `2020-01-01`, not excluded. -/
def exFeat1 : Feature := ⟨"HP:0000001", "Phenotype 1", false, "2020-01-01"⟩

/-- Feature `HP:0000002 - Phenotype 2`, onset `2021-01-01`, excluded. -/
def exFeat2 : Feature := ⟨"HP:0000002", "Phenotype 2", true, "2021-01-01"⟩

/-- Disease `OMIM:1 - D1`, onset `2020-01-01`. -/
def exDis1 : Disease := ⟨"OMIM:1", "D1", false, "2020-01-01"⟩

/-- Disease `OMIM:2 - D2`, onset `2021-01-01`. -/
def exDis2 : Disease := ⟨"OMIM:2", "D2", false, "2021-01-01"⟩

/-- A full example record with two features and two diseases. -/
def exRecord : Phenopacket := ⟨some ⟨"P1"⟩, some [exFeat1, exFeat2], some [exDis1, exDis2]⟩

/-- `exRecord` after filtering by onset `2020-01-01`. -/
def exRecordEarly : Phenopacket := ⟨some ⟨"P1"⟩, some [exFeat1], some [exDis1]⟩

/-- A record with neither list key, only a subject. -/
def exBareRecord : Phenopacket := ⟨some ⟨"P9"⟩, none, none⟩

/-- A record with no key at all. -/
def exEmptyRecord : Phenopacket := ⟨none, none, none⟩

/-- A non-excluded feature whose label happens to end in `" (excluded)"`;
its formatted segment collides with the tag the extractor appends. -/
def exCollideFeat : Feature := ⟨"HP:0000003", "Phenotype 3 (excluded)", false, "2020-01-01"⟩

/-- A record holding just `exCollideFeat`. -/
def exCollideRecord : Phenopacket := ⟨some ⟨"P1"⟩, some [exCollideFeat], none⟩

/-! ## Helper lemmas -/

/-- `strLt` decides Mathlib's lexicographic order on `String`. -/
lemma strLt_iff (a b : String) : strLt a b = true ↔ a < b := by
  rw [strLt, decide_eq_true_eq, String.lt_iff_toList_lt]
  rfl

/-- One step of Python's `min` is `min` of the `String` linear order. -/
lemma py_min_step_eq : py_min_step = fun a b => min a b := by
  funext a b
  rw [py_min_step]
  rcases hlt : strLt b a with _ | _
  · have : ¬ b < a := fun hc => by simp [(strLt_iff b a).mpr hc] at hlt
    simp [min_eq_left (not_lt.mp this)]
  · have : b < a := (strLt_iff b a).mp hlt
    simp [min_eq_right this.le]

/-- One step of Python's `max` is `max` of the `String` linear order. -/
lemma py_max_step_eq : py_max_step = fun a b => max a b := by
  funext a b
  rw [py_max_step]
  rcases hlt : strLt a b with _ | _
  · have : ¬ a < b := fun hc => by simp [(strLt_iff a b).mpr hc] at hlt
    simp [max_eq_left (not_lt.mp this)]
  · have : a < b := (strLt_iff a b).mp hlt
    simp [max_eq_right this.le]

/-- A `min`-fold over a list lands on the seed or on a list element. -/
lemma foldl_min_mem {α : Type} [LinearOrder α] (ts : List α) (t : α) :
    ts.foldl min t = t ∨ ts.foldl min t ∈ ts := by
  induction ts generalizing t with
  | nil => exact Or.inl rfl
  | cons v ts ih =>
    rw [List.foldl_cons]
    rcases ih (min t v) with h | h
    · rcases min_choice t v with h' | h'
      · exact Or.inl (h.trans h')
      · exact Or.inr (by rw [h, h']; exact List.mem_cons_self v ts)
    · exact Or.inr (List.mem_cons_of_mem v h)

/-- A `min`-fold is bounded by its seed. -/
lemma foldl_min_le_init {α : Type} [LinearOrder α] (ts : List α) (t : α) :
    ts.foldl min t ≤ t := by
  induction ts generalizing t with
  | nil => exact le_rfl
  | cons v ts ih => exact (ih (min t v)).trans (min_le_left t v)

/-- A `min`-fold is bounded by every list element. -/
lemma foldl_min_le_mem {α : Type} [LinearOrder α] (ts : List α) (t u : α) (h : u ∈ ts) :
    ts.foldl min t ≤ u := by
  induction ts generalizing t with
  | nil => cases h
  | cons v ts ih =>
    rw [List.foldl_cons]
    rcases List.mem_cons.mp h with h' | h'
    · exact h' ▸ (foldl_min_le_init ts (min t v)).trans (min_le_right t v)
    · exact ih (min t v) h'

/-- A `min`-fold over a constant list returns the constant seed. -/
lemma foldl_min_const {α : Type} [LinearOrder α] (c : α) (ts : List α)
    (h : ∀ u ∈ ts, u = c) : ts.foldl min c = c := by
  rcases foldl_min_mem ts c with h' | h'
  · exact h'
  · exact h _ h'

/-- A `max`-fold over a list lands on the seed or on a list element. -/
lemma foldl_max_mem {α : Type} [LinearOrder α] (ts : List α) (t : α) :
    ts.foldl max t = t ∨ ts.foldl max t ∈ ts := by
  induction ts generalizing t with
  | nil => exact Or.inl rfl
  | cons v ts ih =>
    rw [List.foldl_cons]
    rcases ih (max t v) with h | h
    · rcases max_choice t v with h' | h'
      · exact Or.inl (h.trans h')
      · exact Or.inr (by rw [h, h']; exact List.mem_cons_self v ts)
    · exact Or.inr (List.mem_cons_of_mem v h)

/-- A `max`-fold dominates its seed. -/
lemma foldl_max_ge_init {α : Type} [LinearOrder α] (ts : List α) (t : α) :
    t ≤ ts.foldl max t := by
  induction ts generalizing t with
  | nil => exact le_rfl
  | cons v ts ih => exact (le_max_left t v).trans (ih (max t v))

/-- A `max`-fold dominates every list element. -/
lemma foldl_max_ge_mem {α : Type} [LinearOrder α] (ts : List α) (t u : α) (h : u ∈ ts) :
    u ≤ ts.foldl max t := by
  induction ts generalizing t with
  | nil => cases h
  | cons v ts ih =>
    rw [List.foldl_cons]
    rcases List.mem_cons.mp h with h' | h'
    · exact h' ▸ (le_max_right t v).trans (foldl_max_ge_init ts (max t v))
    · exact ih (max t v) h'

/-- The extractor's accumulation loop, described as filter-then-map: keep the
features that are not (`ignore_excluded` and excluded), format each, and tag
the excluded survivors. -/
lemma pheno_strings_eq (fs : List Feature) (ig : Bool) :
    pheno_strings fs ig = (fs.filter fun f => !(ig && f.excluded)).map
      fun f => format_feature f ++ if f.excluded && !ig then " (excluded)" else "" := by
  induction fs with
  | nil => rfl
  | cons f rest ih =>
    cases hex : f.excluded <;> cases ig <;>
      simp [pheno_strings, hex, List.filter_cons, ih]

/-- Appending the tag produces a tagged segment. -/
lemma hasExclSuffix_append (s : String) : hasExclSuffix (s ++ " (excluded)") = true := by
  rw [hasExclSuffix, decide_eq_true_eq, String.data_append]
  exact ⟨s.data, rfl⟩

/-- Dropping the `" (excluded)"`-suffixed segments from the
`ignore_excluded = false` loop output gives the `ignore_excluded = true` loop
output, provided no non-excluded feature's formatted string carries the tag
on its own. -/
lemma pheno_strings_filter_excl (fs : List Feature)
    (hclean : ∀ f ∈ fs, f.excluded = false → hasExclSuffix (format_feature f) = false) :
    (pheno_strings fs false).filter (fun s => !hasExclSuffix s) = pheno_strings fs true := by
  induction fs with
  | nil => rfl
  | cons f rest ih =>
    have hrest : ∀ f ∈ rest, f.excluded = false → hasExclSuffix (format_feature f) = false :=
      fun g hg => hclean g (List.mem_cons_of_mem f hg)
    cases hex : f.excluded
    · have hf := hclean f (List.mem_cons_self f rest) hex
      simp [pheno_strings, hex, List.filter_cons, hf, ih hrest]
    · simp [pheno_strings, hex, List.filter_cons, hasExclSuffix_append, ih hrest]

/-! ## Claims -/

/-- C2: for every record whose `phenotypicFeatures` key is present, the HPO
extractor formats each feature in original order as `type.id ++ " - " ++
type.label`, skips excluded features entirely when `ignore_excluded` is true
and appends the literal suffix `" (excluded)"` to them when it is false, joins
the retained strings with the separator `"; "` (no leading or trailing
separator, by `String.intercalate`), and returns `""` on a present but empty
feature sequence. -/
theorem extract_HPO_terms_spec (p : Phenopacket) (fs : List Feature) (ig : Bool)
    (h : p.phenotypicFeatures = some fs) :
    extract_HPO_terms_from_phenopacket p ig =
      .ok (String.intercalate "; "
        ((fs.filter fun f => !(ig && f.excluded)).map
          fun f => format_feature f ++ if f.excluded && !ig then " (excluded)" else "")) ∧
    (fs = [] → extract_HPO_terms_from_phenopacket p ig = .ok "") := by
  constructor
  · simp only [extract_HPO_terms_from_phenopacket, h, pheno_strings_eq]
  · intro hfs
    subst hfs
    simp only [extract_HPO_terms_from_phenopacket, h]
    rfl

/-- Witness for C2 at the spec's concrete fixture: one plain and one excluded
feature, extracted with both flag values. -/
theorem extract_HPO_terms_spec_witness :
    extract_HPO_terms_from_phenopacket exRecord true = .ok "HP:0000001 - Phenotype 1" ∧
    extract_HPO_terms_from_phenopacket exRecord false =
      .ok "HP:0000001 - Phenotype 1; HP:0000002 - Phenotype 2 (excluded)" :=
  ⟨((extract_HPO_terms_spec exRecord [exFeat1, exFeat2] true rfl).1).trans (by decide),
   ((extract_HPO_terms_spec exRecord [exFeat1, exFeat2] false rfl).1).trans (by decide)⟩

/-- C5: for a successfully parsed record carrying a subject, the post-fetch
check of `get_phenopacket` raises `RuntimeError` (the spec's
`ConsistencyError`) exactly when the record's `subject.id` differs from the
requested patient id, and returns the record unchanged when they match. -/
theorem get_phenopacket_check_spec (patient_id : String) (p : Phenopacket) (s : Subject)
    (h : p.subject = some s) :
    (s.id ≠ patient_id → get_phenopacket_check patient_id p =
      .error (Err.runtimeError ("Failed to obtain phenopacket for external id " ++ patient_id))) ∧
    (s.id = patient_id → get_phenopacket_check patient_id p = .ok p) ∧
    (∀ q, get_phenopacket_check patient_id p = .ok q → q = p ∧ s.id = patient_id) := by
  simp only [get_phenopacket_check, h]
  refine ⟨fun hne => by rw [if_pos hne], fun he => by rw [if_neg (by simp [he])], ?_⟩
  intro q hq
  by_cases he : s.id = patient_id
  · rw [if_neg (by simp [he])] at hq
    cases hq
    exact ⟨rfl, he⟩
  · rw [if_pos he] at hq
    cases hq

/-- Witness for C5: the matching fetch returns the record; the mismatched
fetch raises the consistency error. -/
theorem get_phenopacket_check_spec_witness :
    get_phenopacket_check "P1" exRecord = .ok exRecord ∧
    get_phenopacket_check "P2" exRecord =
      .error (Err.runtimeError ("Failed to obtain phenopacket for external id " ++ "P2")) :=
  ⟨(get_phenopacket_check_spec "P1" exRecord ⟨"P1"⟩ rfl).2.1 (by decide),
   (get_phenopacket_check_spec "P2" exRecord ⟨"P1"⟩ rfl).1 (by decide)⟩

/-- C7: when `phenotypicFeatures` is absent, the HPO extractor returns the
empty string without raising, provided the record has a subject (the warning
diagnostic names `subject.id`); when `subject` is also absent the diagnostic
path itself fails with a `KeyError`. -/
theorem extract_HPO_missing_features_spec (p : Phenopacket) (ig : Bool)
    (h : p.phenotypicFeatures = none) :
    (∀ s, p.subject = some s → extract_HPO_terms_from_phenopacket p ig = .ok "") ∧
    (p.subject = none →
      extract_HPO_terms_from_phenopacket p ig = .error (Err.keyError "subject")) := by
  simp only [extract_HPO_terms_from_phenopacket, h]
  exact ⟨fun s hs => by rw [hs], fun hs => by rw [hs]⟩

/-- Witness for C7: a subject-only record extracts to `""`; a record with no
subject hits the `KeyError` path. -/
theorem extract_HPO_missing_features_spec_witness :
    extract_HPO_terms_from_phenopacket exBareRecord true = .ok "" ∧
    extract_HPO_terms_from_phenopacket exEmptyRecord true = .error (Err.keyError "subject") :=
  ⟨(extract_HPO_missing_features_spec exBareRecord true rfl).1 ⟨"P9"⟩ rfl,
   (extract_HPO_missing_features_spec exEmptyRecord true rfl).2 rfl⟩

/-- C9: both extractors leave the record exactly as received (their Python
bodies contain no assignment into it), so running an extractor a second time
on the record coming out of the first run returns the same result as the
first run. -/
theorem extractors_state_spec (p : Phenopacket) (ig : Bool) :
    (extract_HPO_state p ig).map Prod.snd = (extract_HPO_state p ig).map (fun _ => p) ∧
    (extract_HPO_state p ig).bind (fun q => extract_HPO_state q.2 ig) =
      extract_HPO_state p ig ∧
    (extract_disease_state p ig).map Prod.snd = (extract_disease_state p ig).map (fun _ => p) ∧
    (extract_disease_state p ig).bind (fun q => extract_disease_state q.2 ig) =
      extract_disease_state p ig := by
  obtain ⟨sub, fs, ds⟩ := p
  cases fs <;> cases ds <;> cases sub <;>
    simp [extract_HPO_state, extract_disease_state, Except.map, Except.bind]

/-- C1: whenever the onset selector resolves (a literal timestamp always
does; a sentinel does when the feature list is non-empty), the filter
replaces `phenotypicFeatures` with the subsequence of original features whose
`onset.timestamp` equals the resolved target and `diseases` with the
subsequence of original diseases equal to that same feature-derived target;
both kept subsequences preserve relative order (they are sublists), and an
absent list is treated as empty and yields an empty result instead of an
error. -/
theorem filter_phenopacket_by_onset_spec (p : Phenopacket) (sel target : String)
    (h : compute_onset_timestamp p sel = .ok target) :
    filter_phenopacket_by_onset p sel = .ok { p with
      phenotypicFeatures := some ((p.phenotypicFeatures.getD []).filter
        fun f => f.onset_timestamp == target),
      diseases := some ((p.diseases.getD []).filter
        fun d => d.onset_timestamp == target) } ∧
    ((p.phenotypicFeatures.getD []).filter
      fun f => f.onset_timestamp == target).Sublist (p.phenotypicFeatures.getD []) ∧
    ((p.diseases.getD []).filter
      fun d => d.onset_timestamp == target).Sublist (p.diseases.getD []) ∧
    (p.phenotypicFeatures = none →
      ((p.phenotypicFeatures.getD []).filter fun f => f.onset_timestamp == target) = []) ∧
    (p.diseases = none →
      ((p.diseases.getD []).filter fun d => d.onset_timestamp == target) = []) := by
  refine ⟨?_, List.filter_sublist _, List.filter_sublist _, ?_, ?_⟩
  · simp only [filter_phenopacket_by_onset, h]
  · intro hn; rw [hn]; rfl
  · intro hn; rw [hn]; rfl

/-- Witness for C1 at the spec's concrete fixture, filtering by the literal
timestamp `2020-01-01`. -/
theorem filter_phenopacket_by_onset_spec_witness :
    compute_onset_timestamp exRecord "2020-01-01" = .ok "2020-01-01" ∧
    (filter_phenopacket_by_onset exRecord "2020-01-01" = .ok { exRecord with
      phenotypicFeatures := some ((exRecord.phenotypicFeatures.getD []).filter
        fun f => f.onset_timestamp == "2020-01-01"),
      diseases := some ((exRecord.diseases.getD []).filter
        fun d => d.onset_timestamp == "2020-01-01") } ∧
    ((exRecord.phenotypicFeatures.getD []).filter
      fun f => f.onset_timestamp == "2020-01-01").Sublist (exRecord.phenotypicFeatures.getD []) ∧
    ((exRecord.diseases.getD []).filter
      fun d => d.onset_timestamp == "2020-01-01").Sublist (exRecord.diseases.getD []) ∧
    (exRecord.phenotypicFeatures = none →
      ((exRecord.phenotypicFeatures.getD []).filter
        fun f => f.onset_timestamp == "2020-01-01") = []) ∧
    (exRecord.diseases = none →
      ((exRecord.diseases.getD []).filter
        fun d => d.onset_timestamp == "2020-01-01") = [])) :=
  ⟨by decide, filter_phenopacket_by_onset_spec exRecord "2020-01-01" "2020-01-01" (by decide)⟩

/-- C10: whenever the filter succeeds it returns a record in which both the
`phenotypicFeatures` key and the `diseases` key are present — bound to `[]`
when the corresponding input key was absent — while the only other field of
the record (`subject`) is unchanged; so key-presence independence is not
preserved across this operation. -/
theorem filter_phenopacket_adds_keys (p : Phenopacket) (sel target : String)
    (h : compute_onset_timestamp p sel = .ok target) :
    ∃ fsOut dsOut,
      filter_phenopacket_by_onset p sel = .ok ⟨p.subject, some fsOut, some dsOut⟩ ∧
      (p.phenotypicFeatures = none → fsOut = []) ∧
      (p.diseases = none → dsOut = []) := by
  refine ⟨(p.phenotypicFeatures.getD []).filter (fun f => f.onset_timestamp == target),
    (p.diseases.getD []).filter (fun d => d.onset_timestamp == target), ?_,
    fun hn => by rw [hn]; rfl, fun hn => by rw [hn]; rfl⟩
  simp only [filter_phenopacket_by_onset, h]

/-- Witness for C10: filtering a record that has neither list key by a
literal timestamp adds both keys, bound to empty lists. -/
theorem filter_phenopacket_adds_keys_witness :
    ∃ fsOut dsOut,
      filter_phenopacket_by_onset exBareRecord "2024-01-01" =
        .ok ⟨exBareRecord.subject, some fsOut, some dsOut⟩ ∧
      (exBareRecord.phenotypicFeatures = none → fsOut = []) ∧
      (exBareRecord.diseases = none → dsOut = []) :=
  filter_phenopacket_adds_keys exBareRecord "2024-01-01" "2024-01-01" (by decide)

/-- C3 counterexample: the claim asserts that any readable credentials file
with at least two lines succeeds, but on the three-line file
`"user\npass\nextra"` the two-element tuple unpacking of
`login_with_credentials_file` raises `ValueError` instead of logging in with
`("user", "pass")`. -/
theorem login_with_credentials_file_cex :
    login_with_credentials_file "user\npass\nextra" = .error Err.valueError ∧
    login_with_credentials_file "user\npass\nextra" ≠ .ok ("user", "pass") := by
  exact ⟨by decide, by decide⟩

/-- C3 (amended): for every credentials file content whose `readlines` yields
exactly two lines, `login_with_credentials_file` takes the first as username
and the second as password, strips surrounding whitespace from both, and
passes exactly that pair to `login`; any other line count fails with
`ValueError` (and an unreadable file fails with `IOError` before parsing,
outside this embedding). -/
theorem login_with_credentials_file_spec (content : String) :
    (∀ u pw, pythonReadlines content = [u, pw] →
      login_with_credentials_file content = .ok (pystrip u, pystrip pw)) ∧
    ((pythonReadlines content).length ≠ 2 →
      login_with_credentials_file content = .error Err.valueError) := by
  constructor
  · intro u pw h
    simp [login_with_credentials_file, h]
  · intro h
    match hl : pythonReadlines content with
    | [] => simp [login_with_credentials_file, hl]
    | [a] => simp [login_with_credentials_file, hl]
    | [a, b] => exact absurd (by simp [hl]) h
    | a :: b :: c :: rest => simp [login_with_credentials_file, hl]

/-- Witness for C3 (amended): a two-line file with padding whitespace logs in
with the stripped pair. -/
theorem login_with_credentials_file_spec_witness :
    pythonReadlines " alice \n bob\n" = [" alice \n", " bob\n"] ∧
    login_with_credentials_file " alice \n bob\n" = .ok ("alice", "bob") :=
  ⟨by decide,
   ((login_with_credentials_file_spec " alice \n bob\n").1 " alice \n" " bob\n"
      (by decide)).trans (by decide)⟩

/-- C4: the sentinel `"earliest"` (resp. `"latest"`) resolves to the minimum
(resp. maximum), under lexicographic string comparison, of the
`onset.timestamp` values of the record's `phenotypicFeatures` alone — the
`diseases` list never influences the resolution — and resolution raises
`ValueError` (the spec's `EmptyInputError`) exactly when `phenotypicFeatures`
is absent or empty. -/
theorem compute_onset_timestamp_sentinel_spec (p : Phenopacket) :
    ((p.phenotypicFeatures.getD []) = [] →
      compute_onset_timestamp p "earliest" = .error Err.valueError ∧
      compute_onset_timestamp p "latest" = .error Err.valueError) ∧
    ((p.phenotypicFeatures.getD []) ≠ [] →
      (∃ t, compute_onset_timestamp p "earliest" = .ok t ∧
        t ∈ (p.phenotypicFeatures.getD []).map Feature.onset_timestamp ∧
        ∀ u ∈ (p.phenotypicFeatures.getD []).map Feature.onset_timestamp, t ≤ u) ∧
      (∃ t, compute_onset_timestamp p "latest" = .ok t ∧
        t ∈ (p.phenotypicFeatures.getD []).map Feature.onset_timestamp ∧
        ∀ u ∈ (p.phenotypicFeatures.getD []).map Feature.onset_timestamp, u ≤ t)) ∧
    (∀ ds sel, compute_onset_timestamp { p with diseases := ds } sel =
      compute_onset_timestamp p sel) := by
  refine ⟨?_, ?_, fun ds sel => rfl⟩
  · intro h
    constructor
    · simp [compute_onset_timestamp, h, pyMinList]
    · simp [compute_onset_timestamp, h, pyMaxList]
  · intro h
    have hmap : (p.phenotypicFeatures.getD []).map Feature.onset_timestamp ≠ [] := by
      simpa using h
    obtain ⟨t0, ts, heq⟩ := List.exists_cons_of_ne_nil hmap
    constructor
    · refine ⟨ts.foldl min t0, ?_, ?_, ?_⟩
      · rw [compute_onset_timestamp, if_pos rfl, heq]
        simp [pyMinList, py_min_step_eq]
      · rw [heq]
        rcases foldl_min_mem ts t0 with h' | h'
        · rw [h']
          exact List.mem_cons_self t0 ts
        · exact List.mem_cons_of_mem t0 h'
      · intro u hu
        rw [heq] at hu
        rcases List.mem_cons.mp hu with h' | h'
        · exact h' ▸ foldl_min_le_init ts t0
        · exact foldl_min_le_mem ts t0 u h'
    · refine ⟨ts.foldl max t0, ?_, ?_, ?_⟩
      · rw [compute_onset_timestamp, if_neg (by decide), if_pos rfl, heq]
        simp [pyMaxList, py_max_step_eq]
      · rw [heq]
        rcases foldl_max_mem ts t0 with h' | h'
        · rw [h']
          exact List.mem_cons_self t0 ts
        · exact List.mem_cons_of_mem t0 h'
      · intro u hu
        rw [heq] at hu
        rcases List.mem_cons.mp hu with h' | h'
        · exact h' ▸ foldl_max_ge_init ts t0
        · exact foldl_max_ge_mem ts t0 u h'

/-- Witness for C4: on an empty feature list both sentinels raise
`ValueError`; on the two-feature fixture `"earliest"` resolves to an attained
lower bound of the feature timestamps. -/
theorem compute_onset_timestamp_sentinel_spec_witness :
    (compute_onset_timestamp exBareRecord "earliest" = .error Err.valueError ∧
      compute_onset_timestamp exBareRecord "latest" = .error Err.valueError) ∧
    (∃ t, compute_onset_timestamp exRecord "earliest" = .ok t ∧
      t ∈ (exRecord.phenotypicFeatures.getD []).map Feature.onset_timestamp ∧
      ∀ u ∈ (exRecord.phenotypicFeatures.getD []).map Feature.onset_timestamp, t ≤ u) :=
  ⟨(compute_onset_timestamp_sentinel_spec exBareRecord).1 (by decide),
   ((compute_onset_timestamp_sentinel_spec exRecord).2.1 (by decide)).1⟩

/-- C6 counterexample: identifying removable segments by the `" (excluded)"`
suffix is not sound for every record.  For the record whose single
non-excluded feature is labelled `"Phenotype 3 (excluded)"`, the
`ignore_excluded = false` run yields the one segment
`"HP:0000003 - Phenotype 3 (excluded)"` (no tag was appended — the label just
ends that way), so suffix-based removal empties the output, while the
`ignore_excluded = true` run keeps the feature. -/
theorem extract_excluded_removal_cex :
    extract_HPO_terms_from_phenopacket exCollideRecord false =
      .ok "HP:0000003 - Phenotype 3 (excluded)" ∧
    removeExcludedSegments (pheno_strings [exCollideFeat] false) = "" ∧
    extract_HPO_terms_from_phenopacket exCollideRecord true =
      .ok "HP:0000003 - Phenotype 3 (excluded)" ∧
    extract_HPO_terms_from_phenopacket exCollideRecord true ≠
      .ok (removeExcludedSegments (pheno_strings [exCollideFeat] false)) := by
  refine ⟨by decide, by decide, by decide, by decide⟩

/-- C6 (amended): for every record with `phenotypicFeatures` present, the
`ignore_excluded = true` output equals the `ignore_excluded = false` output
after removing every `" (excluded)"`-suffixed segment together with its
adjacent `"; "` separator (re-joining the surviving segments leaves no
doubled or dangling separator) — provided no non-excluded feature's formatted
string happens to end in `" (excluded)"` on its own. -/
theorem extract_HPO_excluded_removal (p : Phenopacket) (fs : List Feature)
    (h : p.phenotypicFeatures = some fs)
    (hclean : ∀ f ∈ fs, f.excluded = false → hasExclSuffix (format_feature f) = false) :
    extract_HPO_terms_from_phenopacket p true =
      .ok (removeExcludedSegments (pheno_strings fs false)) := by
  simp only [extract_HPO_terms_from_phenopacket, h, removeExcludedSegments,
    pheno_strings_filter_excl fs hclean]

/-- Witness for C6 (amended) at the spec's concrete fixture. -/
theorem extract_HPO_excluded_removal_witness :
    extract_HPO_terms_from_phenopacket exRecord true =
      .ok (removeExcludedSegments (pheno_strings [exFeat1, exFeat2] false)) :=
  extract_HPO_excluded_removal exRecord [exFeat1, exFeat2] rfl (by decide)

/-- C8: filtering by `"earliest"` is a fixed point — once the filter has kept
only the entries carrying the minimal feature timestamp, resolving
`"earliest"` on the result re-selects that same timestamp and the second
filtering pass keeps everything, returning the record unchanged. -/
theorem filter_earliest_fixed_point (p p' : Phenopacket) (fs : List Feature)
    (h : p.phenotypicFeatures = some fs) (hne : fs ≠ [])
    (hfilter : filter_phenopacket_by_onset p "earliest" = .ok p') :
    filter_phenopacket_by_onset p' "earliest" = .ok p' := by
  obtain ⟨f0, fs0, hfs⟩ := List.exists_cons_of_ne_nil hne
  set T := (fs0.map Feature.onset_timestamp).foldl min f0.onset_timestamp with hT
  have hcomp : compute_onset_timestamp p "earliest" = .ok T := by
    rw [compute_onset_timestamp, if_pos rfl, h, Option.getD_some, hfs]
    simp [pyMinList, py_min_step_eq, hT]
  have hT_mem : T ∈ fs.map Feature.onset_timestamp := by
    rw [hfs, List.map_cons]
    rcases foldl_min_mem (fs0.map Feature.onset_timestamp) f0.onset_timestamp with h' | h'
    · exact h' ▸ List.mem_cons_self _ _
    · exact List.mem_cons_of_mem _ h'
  simp only [filter_phenopacket_by_onset, hcomp, h, Option.getD_some] at hfilter
  have hp' : p' = { p with
      phenotypicFeatures := some (fs.filter fun f => f.onset_timestamp == T),
      diseases := some ((p.diseases.getD []).filter
        fun d => d.onset_timestamp == T) } := (Except.ok.inj hfilter).symm
  subst hp'
  have hFne : (fs.filter fun f => f.onset_timestamp == T) ≠ [] := by
    obtain ⟨f, hfmem, hfT⟩ := List.mem_map.mp hT_mem
    exact List.ne_nil_of_mem (List.mem_filter.mpr ⟨hfmem, by simp [hfT]⟩)
  obtain ⟨c, cs, hF⟩ := List.exists_cons_of_ne_nil hFne
  have hall : ∀ f ∈ (fs.filter fun f => f.onset_timestamp == T), f.onset_timestamp = T :=
    fun f hf => by simpa using (List.mem_filter.mp hf).2
  have hcomp' : compute_onset_timestamp { p with
      phenotypicFeatures := some (fs.filter fun f => f.onset_timestamp == T),
      diseases := some ((p.diseases.getD []).filter
        fun d => d.onset_timestamp == T) } "earliest" = .ok T := by
    rw [compute_onset_timestamp, if_pos rfl, Option.getD_some, hF, List.map_cons]
    have hc : c.onset_timestamp = T := hall c (hF ▸ List.mem_cons_self c cs)
    rw [pyMinList, py_min_step_eq, hc]
    rw [foldl_min_const T (cs.map Feature.onset_timestamp) ?_]
    intro u hu
    obtain ⟨g, hg, hgu⟩ := List.mem_map.mp hu
    exact hgu ▸ hall g (hF ▸ List.mem_cons_of_mem c hg)
  simp only [filter_phenopacket_by_onset, hcomp', Option.getD_some]
  have hFfix : List.filter (fun feature => feature.onset_timestamp == T)
      (List.filter (fun f => f.onset_timestamp == T) fs) =
      List.filter (fun f => f.onset_timestamp == T) fs :=
    List.filter_eq_self.mpr (fun f hf => by simp [hall f hf])
  have hDfix : List.filter (fun disease => disease.onset_timestamp == T)
      (List.filter (fun d => d.onset_timestamp == T) (p.diseases.getD [])) =
      List.filter (fun d => d.onset_timestamp == T) (p.diseases.getD []) :=
    List.filter_eq_self.mpr (fun d hd => by simpa using (List.mem_filter.mp hd).2)
  rw [hFfix, hDfix]

/-- Witness for C8 at the spec's concrete fixture: filtering by `"earliest"`
and filtering the result by `"earliest"` again returns the same record. -/
theorem filter_earliest_fixed_point_witness :
    filter_phenopacket_by_onset exRecord "earliest" = .ok exRecordEarly ∧
    filter_phenopacket_by_onset exRecordEarly "earliest" = .ok exRecordEarly :=
  ⟨by decide,
   filter_earliest_fixed_point exRecord exRecordEarly [exFeat1, exFeat2] rfl
     (by decide) (by decide)⟩

end SimpleSamsApi
